import Mathlib

/-!
Verification of a small CRUD HTTP-like service (Rust, `src/lib.rs`).

The service reads raw bytes from a socket, decodes them lossily to text,
classifies the text by literal prefix into three handlers (create, update,
delete), parses path id and JSON body by hand, and issues one parameterized
SQL statement per request against a Postgres connection.

The embedding below models, faithfully to the source:
  * the Rust string operations used (`split` with a string pattern, `nth`,
    `last`, `split_whitespace().next()`, `starts_with`, `parse::<i32>`),
  * `serde_json::from_str` specialized to the `User` struct,
  * `String::from_utf8_lossy`,
  * the three handlers and the dispatcher, with the database abstracted as
    an oracle giving the results of `Connection::open` and `execute`, and a
    trace recording which database calls were attempted.

A handler returning `none` models a Rust panic (the source calls
`.unwrap()` on the result of `execute`, so an execute failure escapes the
handler rather than producing a response).
-/

namespace Crud

/-! ## Rust `str::split` with a string pattern (pattern nonempty) -/

/-- One step list of Rust `split`: scan `cs` left to right; at the first
position where the pattern `p` occurs, emit the accumulated segment and
restart after the pattern.  `fuel` only bounds recursion depth; with
`fuel ≥ cs.length` it is never exhausted. -/
def rustSplitGo (p : List Char) (fuel : Nat) (cs : List Char) (acc : List Char) :
    List (List Char) :=
  match fuel with
  | 0 => [acc ++ cs]
  | fuel + 1 =>
    match cs with
    | [] => [acc]
    | c :: t =>
      if p.isPrefixOf (c :: t) then
        acc :: rustSplitGo p fuel ((c :: t).drop p.length) []
      else
        rustSplitGo p fuel t (acc ++ [c])

/-- Rust `s.split(p)` for a nonempty string pattern `p`, as a list of
segments.  Rust yields at least one (possibly empty) segment; an empty
pattern never occurs in this program. -/
def rustSplit (p : String) (s : String) : List String :=
  match p.data with
  | [] => [s]
  | c :: t => (rustSplitGo (c :: t) s.data.length s.data []).map String.mk

/-! ## Rust `char::is_whitespace` and `split_whitespace().next()` -/

/-- Rust `char::is_whitespace`: the Unicode `White_Space` property,
by explicit code point list. -/
def isRustWhitespace (c : Char) : Bool :=
  let v := c.toNat
  (0x09 ≤ v && v ≤ 0x0D) || v = 0x20 || v = 0x85 || v = 0xA0 ||
  v = 0x1680 || (0x2000 ≤ v && v ≤ 0x200A) || v = 0x2028 || v = 0x2029 ||
  v = 0x202F || v = 0x205F || v = 0x3000

/-- Rust `s.split_whitespace().next()`: skip leading whitespace; `none` if
nothing remains, otherwise the maximal run of non-whitespace characters. -/
def splitWhitespaceNext (s : String) : Option String :=
  match s.data.dropWhile isRustWhitespace with
  | [] => none
  | c :: t => some (String.mk ((c :: t).takeWhile (fun d => !isRustWhitespace d)))

/-! ## Rust `str::parse::<i32>` -/

/-- Digits-to-value part of `i32::from_str`: all characters must be ASCII
digits, at least one digit, and the signed value must fit in `i32`. -/
def digitsToI32 (neg : Bool) (ds : List Char) : Option Int :=
  if ds.isEmpty then none
  else if ds.all Char.isDigit then
    let n : Nat := ds.foldl (fun a c => a * 10 + (c.toNat - 48)) 0
    let v : Int := if neg then -(n : Int) else (n : Int)
    if -2147483648 ≤ v ∧ v ≤ 2147483647 then some v else none
  else none

/-- Rust `s.parse::<i32>()`: optional sign, then one or more ASCII digits,
value within `i32` range; anything else is an error (`none`). -/
def parseI32 (s : String) : Option Int :=
  match s.data with
  | '+' :: ds => digitsToI32 false ds
  | '-' :: ds => digitsToI32 true ds
  | ds => digitsToI32 false ds

/-! ## Response constants (exact strings from the source) -/

def OK_RESPONSE : String := "HTTP/1.1 200 OK\r\nContent-Type: application/json\r\n\r\n"

def NOT_FOUND : String := "HTTP/1.1 404 NOT FOUND\r\n\r\n"

def INTERNAL_SERVER_ERROR : String := "HTTP/1.1 500 INTERNAL SERVER ERROR\r\n\r\n"

/-! ## Database abstraction

The database is external; it is abstracted as an oracle giving the result
of `pg::Connection::open` and of the single `execute` call a handler makes.
A `Trace` records which database calls the handler actually performed. -/

/-- A SQL parameter value, as bound by the handlers. -/
inductive Param where
  | str (s : String)
  | int32 (n : Int)
deriving DecidableEq, Repr

/-- Outcome of `pg::Connection::open` / `client.execute` supplied by the
environment. `execResult` is the affected-row count on success. -/
structure Db where
  openResult : Except String Unit
  execResult : Except String Nat
deriving Repr

/-- Which database calls a handler performed: how many times it called
`Connection::open`, and every statement (SQL text with bound parameters)
it submitted via `execute`. -/
structure Trace where
  opens : Nat
  execs : List (String × List Param)
deriving DecidableEq, Repr

def Trace.empty : Trace := ⟨0, []⟩

/-- A handler outcome: `none` models a Rust panic escaping the handler
(the source unwraps the `execute` result), `some (status, body)` a
response; paired with the database trace. -/
abbrev HandlerResult := Option (String × String) × Trace

/-! ## JSON values and `serde_json` parsing

`serde_json::from_str::<User>` first parses the text as a JSON document
(whole input consumed, surrounding whitespace allowed) and then
deserializes the document into the struct.  The number model keeps exact
integer values in the `i64`/`u64` window (larger literals and any literal
with a fraction or exponent become floats, whose value no claim observes). -/

/-- A JSON number as `serde_json` classifies it: an exact integer in the
`i64`/`u64` window, or a float (payload irrelevant to `User`). -/
inductive JNum where
  | int (n : Int)
  | float
deriving DecidableEq, Repr

/-- A parsed JSON document. -/
inductive Json where
  | null
  | bool (b : Bool)
  | num (n : JNum)
  | str (s : String)
  | arr (elems : List Json)
  | obj (members : List (String × Json))

/-- JSON insignificant whitespace (RFC 8259): space, tab, LF, CR. -/
def jsonWsChar (c : Char) : Bool :=
  c = ' ' || c = '\t' || c = '\n' || c = '\r'

def skipJsonWs (cs : List Char) : List Char := cs.dropWhile jsonWsChar

/-- Value of an ASCII hex digit, `none` otherwise. -/
def hexVal (c : Char) : Option Nat :=
  if '0' ≤ c ∧ c ≤ '9' then some (c.toNat - 48)
  else if 'a' ≤ c ∧ c ≤ 'f' then some (c.toNat - 87)
  else if 'A' ≤ c ∧ c ≤ 'F' then some (c.toNat - 55)
  else none

/-- Four hex digits to their value. -/
def hex4 (a b c d : Char) : Option Nat :=
  match hexVal a, hexVal b, hexVal c, hexVal d with
  | some x, some y, some z, some w => some (((x * 16 + y) * 16 + z) * 16 + w)
  | _, _, _, _ => none

/-- Body of a JSON string literal, after the opening quote: plain
characters (controls must be escaped), the standard escapes, and
`\uXXXX` with surrogate pairs.  Returns the string and the rest after the
closing quote. -/
def parseJStringBody (fuel : Nat) (cs : List Char) (acc : List Char) :
    Option (String × List Char) :=
  match fuel with
  | 0 => none
  | fuel + 1 =>
    match cs with
    | [] => none
    | c :: t =>
      if c = '"' then some (String.mk acc.reverse, t)
      else if c = '\\' then
        match t with
        | [] => none
        | e :: t2 =>
          if e = '"' then parseJStringBody fuel t2 ('"' :: acc)
          else if e = '\\' then parseJStringBody fuel t2 ('\\' :: acc)
          else if e = '/' then parseJStringBody fuel t2 ('/' :: acc)
          else if e = 'b' then parseJStringBody fuel t2 ('\x08' :: acc)
          else if e = 'f' then parseJStringBody fuel t2 ('\x0C' :: acc)
          else if e = 'n' then parseJStringBody fuel t2 ('\n' :: acc)
          else if e = 'r' then parseJStringBody fuel t2 ('\r' :: acc)
          else if e = 't' then parseJStringBody fuel t2 ('\t' :: acc)
          else if e = 'u' then
            match t2 with
            | h1 :: h2 :: h3 :: h4 :: t3 =>
              match hex4 h1 h2 h3 h4 with
              | none => none
              | some v =>
                if v < 0xD800 ∨ 0xE000 ≤ v then
                  parseJStringBody fuel t3 (Char.ofNat v :: acc)
                else if v < 0xDC00 then
                  match t3 with
                  | '\\' :: 'u' :: k1 :: k2 :: k3 :: k4 :: t4 =>
                    match hex4 k1 k2 k3 k4 with
                    | none => none
                    | some w =>
                      if 0xDC00 ≤ w ∧ w < 0xE000 then
                        parseJStringBody fuel t4
                          (Char.ofNat (0x10000 + (v - 0xD800) * 0x400 + (w - 0xDC00)) :: acc)
                      else none
                  | _ => none
                else none
            | _ => none
          else none
      else if c.toNat < 0x20 then none
      else parseJStringBody fuel t (c :: acc)

/-- A JSON number literal: `-? (0 | [1-9][0-9]*) frac? exp?`.  No fraction
and no exponent and value inside the `i64`/`u64` window gives an exact
integer; otherwise a float (as `serde_json` falls back to `f64`). -/
def parseJNumber (cs : List Char) : Option (JNum × List Char) :=
  let signed := match cs with
    | '-' :: t => some (true, t)
    | _ => some (false, cs)
  match signed with
  | none => none
  | some (neg, cs1) =>
    match cs1 with
    | [] => none
    | c :: t =>
      if ¬ c.isDigit then none
      else
        let ip : List Char × List Char :=
          if c = '0' then ([c], t)
          else (cs1.takeWhile Char.isDigit, cs1.dropWhile Char.isDigit)
        let intDigits := ip.1
        let cs2 := ip.2
        let frac : Option (Bool × List Char) :=
          match cs2 with
          | '.' :: t2 =>
            if (t2.takeWhile Char.isDigit).isEmpty then none
            else some (true, t2.dropWhile Char.isDigit)
          | _ => some (false, cs2)
        match frac with
        | none => none
        | some (hasFrac, cs3) =>
          let expo : Option (Bool × List Char) :=
            match cs3 with
            | 'e' :: t3 =>
              let t4 := match t3 with
                | '+' :: u => u
                | '-' :: u => u
                | _ => t3
              if (t4.takeWhile Char.isDigit).isEmpty then none
              else some (true, t4.dropWhile Char.isDigit)
            | 'E' :: t3 =>
              let t4 := match t3 with
                | '+' :: u => u
                | '-' :: u => u
                | _ => t3
              if (t4.takeWhile Char.isDigit).isEmpty then none
              else some (true, t4.dropWhile Char.isDigit)
            | _ => some (false, cs3)
          match expo with
          | none => none
          | some (hasExp, cs4) =>
            if hasFrac ∨ hasExp then some (JNum.float, cs4)
            else
              let n : Nat := intDigits.foldl (fun a d => a * 10 + (d.toNat - 48)) 0
              if neg then
                if (n : Int) ≤ 9223372036854775808 then some (JNum.int (-(n : Int)), cs4)
                else some (JNum.float, cs4)
              else
                if n < 18446744073709551616 then some (JNum.int (n : Int), cs4)
                else some (JNum.float, cs4)

mutual

/-- Parse one JSON value, leading whitespace allowed. -/
def parseJValue (fuel : Nat) (cs : List Char) : Option (Json × List Char) :=
  match fuel with
  | 0 => none
  | fuel + 1 =>
    match skipJsonWs cs with
    | [] => none
    | c :: t =>
      if c = '"' then
        match parseJStringBody (t.length + 1) t [] with
        | some (s, rest) => some (Json.str s, rest)
        | none => none
      else if c = '\x7b' then parseJMembers fuel t true []
      else if c = '[' then parseJElems fuel t true []
      else if c = 't' then
        match t with
        | 'r' :: 'u' :: 'e' :: rest => some (Json.bool true, rest)
        | _ => none
      else if c = 'f' then
        match t with
        | 'a' :: 'l' :: 's' :: 'e' :: rest => some (Json.bool false, rest)
        | _ => none
      else if c = 'n' then
        match t with
        | 'u' :: 'l' :: 'l' :: rest => some (Json.null, rest)
        | _ => none
      else
        match parseJNumber (c :: t) with
        | some (n, rest) => some (Json.num n, rest)
        | none => none

/-- Parse the members of an object, positioned after `\x7b` (when `first`)
or after a comma.  `acc` holds the members read so far, in reverse. -/
def parseJMembers (fuel : Nat) (cs : List Char) (first : Bool)
    (acc : List (String × Json)) : Option (Json × List Char) :=
  match fuel with
  | 0 => none
  | fuel + 1 =>
    match skipJsonWs cs with
    | [] => none
    | c :: t =>
      if c = '\x7d' ∧ first then some (Json.obj acc.reverse, t)
      else
        if c = '"' then
          match parseJStringBody (t.length + 1) t [] with
          | none => none
          | some (key, rest) =>
            match skipJsonWs rest with
            | ':' :: rest2 =>
              match parseJValue fuel rest2 with
              | none => none
              | some (v, rest3) =>
                match skipJsonWs rest3 with
                | ',' :: rest4 => parseJMembers fuel rest4 false ((key, v) :: acc)
                | '\x7d' :: rest4 => some (Json.obj (((key, v)) :: acc).reverse, rest4)
                | _ => none
            | _ => none
        else none

/-- Parse the elements of an array, positioned after `[` (when `first`)
or after a comma. -/
def parseJElems (fuel : Nat) (cs : List Char) (first : Bool)
    (acc : List Json) : Option (Json × List Char) :=
  match fuel with
  | 0 => none
  | fuel + 1 =>
    match skipJsonWs cs with
    | [] => none
    | c :: t =>
      if c = ']' ∧ first then some (Json.arr acc.reverse, t)
      else
        match parseJValue fuel (c :: t) with
        | none => none
        | some (v, rest) =>
          match skipJsonWs rest with
          | ',' :: rest2 => parseJElems fuel rest2 false (v :: acc)
          | ']' :: rest2 => some (Json.arr ((v :: acc)).reverse, rest2)
          | _ => none

end

/-- `serde_json`: parse a whole text as one JSON document; trailing
whitespace allowed, anything else after the value is an error. -/
def parseJsonText (s : String) : Except String Json :=
  match parseJValue (s.data.length + 1) s.data with
  | none => Except.error "invalid JSON"
  | some (v, rest) =>
    if (skipJsonWs rest).isEmpty then Except.ok v
    else Except.error "trailing characters"

/-! ## The `User` struct and its derived deserialization -/

/-- The `User` struct of the source: optional `id`, required `name` and
`email` (the `i32` of the source is carried as an `Int` whose range the
deserializer enforces). -/
structure User where
  id : Option Int
  name : String
  email : String
deriving DecidableEq, Repr

/-- Deserialize an `Option<i32>` field value: `null` gives `none`, an
integer in `i32` range gives `some`, everything else is an error. -/
def jsonToOptI32 (j : Json) : Except String (Option Int) :=
  match j with
  | Json.null => Except.ok none
  | Json.num (JNum.int n) =>
    if -2147483648 ≤ n ∧ n ≤ 2147483647 then Except.ok (some n)
    else Except.error "integer out of range"
  | _ => Except.error "invalid type"

/-- Deserialize a `String` field value. -/
def jsonToString (j : Json) : Except String String :=
  match j with
  | Json.str s => Except.ok s
  | _ => Except.error "invalid type"

/-- Partially filled `User` fields while reading an object. -/
structure UserSlots where
  id : Option (Option Int)
  name : Option String
  email : Option String

/-- Read object members in order, as derived `Deserialize` does: a known
field met twice is a duplicate-field error, unknown fields are ignored. -/
def readUserFields (members : List (String × Json)) (acc : UserSlots) :
    Except String UserSlots :=
  match members with
  | [] => Except.ok acc
  | (k, v) :: t =>
    if k = "id" then
      match acc.id with
      | some _ => Except.error "duplicate field id"
      | none =>
        match jsonToOptI32 v with
        | Except.ok oi => readUserFields t { acc with id := some oi }
        | Except.error e => Except.error e
    else if k = "name" then
      match acc.name with
      | some _ => Except.error "duplicate field name"
      | none =>
        match jsonToString v with
        | Except.ok s => readUserFields t { acc with name := some s }
        | Except.error e => Except.error e
    else if k = "email" then
      match acc.email with
      | some _ => Except.error "duplicate field email"
      | none =>
        match jsonToString v with
        | Except.ok s => readUserFields t { acc with email := some s }
        | Except.error e => Except.error e
    else readUserFields t acc

/-- Derived `Deserialize` for `User`.  A JSON object is read through its
members (`name` and `email` required, a missing `id` is `none`).  The
derived struct visitor equally accepts a JSON array via `visit_seq`: the
fields are read in declaration order `[id, name, email]`, a sequence that
ends early is an invalid-length error, and `serde_json` rejects leftover
elements after the third.  Every other document shape is a type error. -/
def deserializeUser (j : Json) : Except String User :=
  match j with
  | Json.obj members =>
    match readUserFields members ⟨none, none, none⟩ with
    | Except.error e => Except.error e
    | Except.ok slots =>
      match slots.name, slots.email with
      | some n, some e => Except.ok ⟨slots.id.getD none, n, e⟩
      | none, _ => Except.error "missing field name"
      | some _, none => Except.error "missing field email"
  | Json.arr elems =>
    match elems with
    | [] => Except.error "invalid length"
    | jid :: rest1 =>
      match jsonToOptI32 jid with
      | Except.error e => Except.error e
      | Except.ok oi =>
        match rest1 with
        | [] => Except.error "invalid length"
        | jname :: rest2 =>
          match jsonToString jname with
          | Except.error e => Except.error e
          | Except.ok n =>
            match rest2 with
            | [] => Except.error "invalid length"
            | jemail :: rest3 =>
              match jsonToString jemail with
              | Except.error e => Except.error e
              | Except.ok em =>
                match rest3 with
                | [] => Except.ok ⟨oi, n, em⟩
                | _ => Except.error "trailing elements"
  | _ => Except.error "invalid type"

/-- `serde_json::from_str::<User>`. -/
def userFromStr (s : String) : Except String User :=
  match parseJsonText s with
  | Except.error e => Except.error e
  | Except.ok j => deserializeUser j

/-! ## The source functions (`src/lib.rs`) -/

/-- `get_id`: split the request text on `"/"`, take the third segment
(`nth(2)`), defaulting to empty, then the first whitespace-separated token
of it (`split_whitespace().next()`), defaulting to empty. -/
def get_id (request : String) : String :=
  (splitWhitespaceNext (((rustSplit "/" request)[2]?).getD "")).getD ""

/-- The header/body separator used by `get_user_request_body`. -/
def bodySep : String := "\r\n\r\n"

/-- The text `get_user_request_body` hands to `serde_json`: split the
request on the blank line and take the last segment
(`split("\r\n\r\n").last().unwrap_or_default()`). -/
def extractBody (request : String) : String :=
  ((rustSplit bodySep request).getLast?).getD ""

/-- `get_user_request_body`: deserialize the extracted body as a `User`. -/
def get_user_request_body (request : String) : Except String User :=
  userFromStr (extractBody request)

/-- SQL text of the insert statement in `handle_post_request`. -/
def insertSql : String := "INSERT INTO users (name, email) VALUES ($1, $2)"

/-- SQL text of the update statement in `handle_put_request`. -/
def updateSql : String := "UPDATE users SET name = $1, email = $2 WHERE id = $3"

/-- SQL text of the delete statement in `handle_delete_request`. -/
def deleteSql : String := "DELETE FROM users WHERE id = $1"

/-- `handle_post_request`: the source evaluates the body parse and
`Connection::open` (both always run, hence `opens = 1` in every branch)
and matches on the pair; on double success it executes the insert binding
only name and email, unwrapping the result (`none` on execute error);
otherwise it answers 500 / `"Error"`. -/
def handle_post_request (request : String) (db : Db) : HandlerResult :=
  match get_user_request_body request, db.openResult with
  | Except.ok user, Except.ok _ =>
    let stmt := (insertSql, [Param.str user.name, Param.str user.email])
    match db.execResult with
    | Except.ok _ => (some (OK_RESPONSE, "User created"), ⟨1, [stmt]⟩)
    | Except.error _ => (none, ⟨1, [stmt]⟩)
  | _, _ => (some (INTERNAL_SERVER_ERROR, "Error"), ⟨1, []⟩)

/-- `handle_put_request`: evaluates the id parse, the body parse and
`Connection::open`, matches on the triple; on triple success it executes
the update binding name, email and id, unwraps the result and ignores the
affected-row count; otherwise 500 / `"Error"`. -/
def handle_put_request (request : String) (db : Db) : HandlerResult :=
  match parseI32 (get_id request), get_user_request_body request, db.openResult with
  | some id, Except.ok user, Except.ok _ =>
    let stmt := (updateSql,
      [Param.str user.name, Param.str user.email, Param.int32 id])
    match db.execResult with
    | Except.ok _ => (some (OK_RESPONSE, "User updated"), ⟨1, [stmt]⟩)
    | Except.error _ => (none, ⟨1, [stmt]⟩)
  | _, _, _ => (some (INTERNAL_SERVER_ERROR, "Error"), ⟨1, []⟩)

/-- `handle_delete_request`: evaluates the id parse and `Connection::open`;
on double success it executes the delete binding the id, unwraps the
affected-row count and answers 404 / `"User not found"` when it is zero,
200 / `"User deleted"` otherwise; on match failure 500 / `"Error"`. -/
def handle_delete_request (request : String) (db : Db) : HandlerResult :=
  match parseI32 (get_id request), db.openResult with
  | some id, Except.ok _ =>
    let stmt := (deleteSql, [Param.int32 id])
    match db.execResult with
    | Except.ok rows_affected =>
      if rows_affected = 0 then (some (NOT_FOUND, "User not found"), ⟨1, [stmt]⟩)
      else (some (OK_RESPONSE, "User deleted"), ⟨1, [stmt]⟩)
    | Except.error _ => (none, ⟨1, [stmt]⟩)
  | _, _ => (some (INTERNAL_SERVER_ERROR, "Error"), ⟨1, []⟩)

/-! ## `String::from_utf8_lossy`

`handle_client` decodes the bytes read from the socket with
`String::from_utf8_lossy`, which replaces each maximal invalid subpart
with one U+FFFD replacement character.  The decoder below is a byte-DFA:
the state carries the partially decoded value, how many continuation
bytes are still needed, and the allowed range of the next byte (the
first continuation byte of a 3- or 4-byte sequence has a restricted
range that rules out overlong forms and surrogates). -/

/-- The U+FFFD replacement character. -/
def replChar : Char := Char.ofNat 0xFFFD

/-- Outcome of feeding one byte to the decoder in its initial state. -/
inductive StartStep where
  | one (c : Char)
  | bad
  | more (st : Nat × Nat × Nat × Nat)

/-- Classify a lead byte: ASCII, invalid (stray continuation, overlong
lead `C0`/`C1`, or `F5..FF`), or the start of a 2-, 3- or 4-byte sequence
with the value so far, bytes still needed, and the bounds for the next
byte. -/
def stepStart (b : Nat) : StartStep :=
  if b < 0x80 then StartStep.one (Char.ofNat b)
  else if b < 0xC2 then StartStep.bad
  else if b < 0xE0 then StartStep.more (b - 0xC0, 1, 0x80, 0xBF)
  else if b < 0xF0 then
    StartStep.more (b - 0xE0, 2, if b = 0xE0 then 0xA0 else 0x80,
      if b = 0xED then 0x9F else 0xBF)
  else if b < 0xF5 then
    StartStep.more (b - 0xF0, 3, if b = 0xF0 then 0x90 else 0x80,
      if b = 0xF4 then 0x8F else 0xBF)
  else StartStep.bad

/-- Decode a byte list, one U+FFFD per maximal invalid subpart: a byte
outside the expected continuation range ends the current sequence with one
replacement and is reprocessed as a fresh lead byte; a sequence cut off by
the end of input yields one final replacement. -/
def utf8LossyAux : Option (Nat × Nat × Nat × Nat) → List Nat → List Char
  | none, [] => []
  | some _, [] => [replChar]
  | none, b :: t =>
    match stepStart b with
    | StartStep.one c => c :: utf8LossyAux none t
    | StartStep.bad => replChar :: utf8LossyAux none t
    | StartStep.more st => utf8LossyAux (some st) t
  | some (v, need, lo, hi), b :: t =>
    if lo ≤ b ∧ b ≤ hi then
      if need = 1 then Char.ofNat (v * 64 + (b - 0x80)) :: utf8LossyAux none t
      else utf8LossyAux (some (v * 64 + (b - 0x80), need - 1, 0x80, 0xBF)) t
    else
      replChar ::
        (match stepStart b with
         | StartStep.one c => c :: utf8LossyAux none t
         | StartStep.bad => replChar :: utf8LossyAux none t
         | StartStep.more st => utf8LossyAux (some st) t)

/-- The character sequence `String::from_utf8_lossy` produces. -/
def utf8Lossy (bs : List Nat) : List Char := utf8LossyAux none bs

/-- `String::from_utf8_lossy` as a `String`. -/
def fromUtf8Lossy (bs : List Nat) : String := String.mk (utf8Lossy bs)

/-- UTF-8 encoding of a Unicode scalar value (for stating that the lossy
decoder is exact on validly encoded input). -/
def encodeCodepoint (v : Nat) : List Nat :=
  if v < 0x80 then [v]
  else if v < 0x800 then [0xC0 + v / 64, 0x80 + v % 64]
  else if v < 0x10000 then [0xE0 + v / 4096, 0x80 + (v / 64) % 64, 0x80 + v % 64]
  else [0xF0 + v / 262144, 0x80 + (v / 4096) % 64, 0x80 + (v / 64) % 64, 0x80 + v % 64]

def encodeChar (c : Char) : List Nat := encodeCodepoint c.toNat

def encodeChars (l : List Char) : List Nat := l.foldr (fun c acc => encodeChar c ++ acc) []

/-- The UTF-8 bytes of a string. -/
def encodeUtf8 (s : String) : List Nat := encodeChars s.data

/-- Rust `s.starts_with(p)` for a string pattern. -/
def rustStartsWith (s p : String) : Bool :=
  p.data.isPrefixOf s.data

/-- The dispatcher match of `handle_client`: classify the decoded request
text by literal prefix, first match winning; unmatched text gets the fixed
not-found response with no database interaction. -/
def dispatch (request : String) (db : Db) : HandlerResult :=
  if rustStartsWith request "POST /users" then handle_post_request request db
  else if rustStartsWith request "PUT /users/" then handle_put_request request db
  else if rustStartsWith request "DELETE /users/" then handle_delete_request request db
  else (some (NOT_FOUND, "404 Not Found"), Trace.empty)

/-- `handle_client` after a successful read: decode the bytes read from
the socket with `String::from_utf8_lossy` and dispatch on the resulting
text. -/
def handle_client (bytes : List Nat) (db : Db) : HandlerResult :=
  dispatch (fromUtf8Lossy bytes) db

/-! ## Concrete database oracles used by witnesses -/

/-- Connection-open and execute both succeed, one row affected. -/
def dbAllOk : Db := ⟨Except.ok (), Except.ok 1⟩

/-- Connection-open fails. -/
def dbOpenFail : Db := ⟨Except.error "connection refused", Except.ok 1⟩

/-- Connection-open succeeds, the statement execution fails. -/
def dbExecFail : Db := ⟨Except.ok (), Except.error "SQL error"⟩

/-- Modelled from the claim wording of C6: split on `"/"`, take the third
segment, then truncate that segment at the first whitespace character. -/
def get_id_truncate (request : String) : String :=
  String.mk ((((rustSplit "/" request)[2]?).getD "").data.takeWhile
    (fun c => !isRustWhitespace c))

/-! ## Supporting lemmas -/

set_option maxRecDepth 8192 in
/-- The lossy decoder decodes a validly encoded scalar value exactly and
continues with the remaining bytes. -/
theorem utf8Lossy_encodeCodepoint (v : Nat) (hv : v < 0xD800 ∨ (0xDFFF < v ∧ v < 0x110000))
    (rest : List Nat) :
    utf8LossyAux none (encodeCodepoint v ++ rest) = Char.ofNat v :: utf8LossyAux none rest := by
  rcases Nat.lt_or_ge v 0x80 with h1 | h1
  · have he : encodeCodepoint v = [v] := by
      unfold encodeCodepoint
      rw [if_pos h1]
    rw [he]
    simp only [List.cons_append, List.nil_append, utf8LossyAux, stepStart, if_pos h1]
    rfl
  · rcases Nat.lt_or_ge v 0x800 with h2 | h2
    · have he : encodeCodepoint v = [0xC0 + v / 64, 0x80 + v % 64] := by
        unfold encodeCodepoint
        rw [if_neg (by omega), if_pos h2]
      rw [he]
      simp only [List.cons_append, List.nil_append, List.append_eq, utf8LossyAux, stepStart,
        if_neg (by omega : ¬ (0xC0 + v / 64 < 0x80)),
        if_neg (by omega : ¬ (0xC0 + v / 64 < 0xC2)),
        if_pos (by omega : 0xC0 + v / 64 < 0xE0)]
      simp only [utf8LossyAux,
        if_pos (by omega : (0x80 : Nat) ≤ 0x80 + v % 64 ∧ 0x80 + v % 64 ≤ 0xBF),
        if_true, if_pos rfl, List.append_eq, List.nil_append]
      congr 2
      omega
    · rcases Nat.lt_or_ge v 0x10000 with h3 | h3
      · have he : encodeCodepoint v =
            [0xE0 + v / 4096, 0x80 + (v / 64) % 64, 0x80 + v % 64] := by
          unfold encodeCodepoint
          rw [if_neg (by omega), if_neg (by omega), if_pos h3]
        rw [he]
        simp only [List.cons_append, List.nil_append, List.append_eq, utf8LossyAux, stepStart,
          if_neg (by omega : ¬ (0xE0 + v / 4096 < 0x80)),
          if_neg (by omega : ¬ (0xE0 + v / 4096 < 0xC2)),
          if_neg (by omega : ¬ (0xE0 + v / 4096 < 0xE0)),
          if_pos (by omega : 0xE0 + v / 4096 < 0xF0)]
        have c5 : ((if 0xE0 + v / 4096 = 0xE0 then (0xA0 : Nat) else 0x80) ≤ 0x80 + v / 64 % 64
            ∧ 0x80 + v / 64 % 64 ≤ (if 0xE0 + v / 4096 = 0xED then (0x9F : Nat) else 0xBF)) := by
          have d1 : v / 64 / 64 = v / 4096 := by
            rw [Nat.div_div_eq_div_mul]
          constructor
          · split
            · omega
            · omega
          · split
            · omega
            · omega
        simp only [utf8LossyAux, if_pos c5, if_neg (by omega : ¬ ((2 : Nat) = 1))]
        simp only [utf8LossyAux,
          if_pos (by omega : (0x80 : Nat) ≤ 0x80 + v % 64 ∧ 0x80 + v % 64 ≤ 0xBF),
          if_true, if_pos rfl, List.append_eq, List.nil_append]
        congr 2
        have d1 : v / 64 / 64 = v / 4096 := by
          rw [Nat.div_div_eq_div_mul]
        omega
      · have h4 : v < 0x110000 := by omega
        have he : encodeCodepoint v =
            [0xF0 + v / 262144, 0x80 + (v / 4096) % 64, 0x80 + (v / 64) % 64, 0x80 + v % 64] := by
          unfold encodeCodepoint
          rw [if_neg (by omega), if_neg (by omega), if_neg (by omega)]
        rw [he]
        have d1 : v / 64 / 64 = v / 4096 := by
          rw [Nat.div_div_eq_div_mul]
        have d2 : v / 4096 / 64 = v / 262144 := by
          rw [Nat.div_div_eq_div_mul]
        simp only [List.cons_append, List.nil_append, List.append_eq, utf8LossyAux, stepStart,
          if_neg (by omega : ¬ (0xF0 + v / 262144 < 0x80)),
          if_neg (by omega : ¬ (0xF0 + v / 262144 < 0xC2)),
          if_neg (by omega : ¬ (0xF0 + v / 262144 < 0xE0)),
          if_neg (by omega : ¬ (0xF0 + v / 262144 < 0xF0)),
          if_pos (by omega : 0xF0 + v / 262144 < 0xF5)]
        have c6 : ((if 0xF0 + v / 262144 = 0xF0 then (0x90 : Nat) else 0x80) ≤ 0x80 + v / 4096 % 64
            ∧ 0x80 + v / 4096 % 64 ≤ (if 0xF0 + v / 262144 = 0xF4 then (0x8F : Nat) else 0xBF)) := by
          constructor
          · split
            · omega
            · omega
          · split
            · omega
            · omega
        simp only [utf8LossyAux, if_pos c6, if_neg (by omega : ¬ ((3 : Nat) = 1))]
        simp only [utf8LossyAux,
          if_pos (by omega : (0x80 : Nat) ≤ 0x80 + v / 64 % 64 ∧ 0x80 + v / 64 % 64 ≤ 0xBF),
          if_neg (by omega : ¬ ((3 - 1 : Nat) = 1))]
        simp only [utf8LossyAux,
          if_pos (by omega : (0x80 : Nat) ≤ 0x80 + v % 64 ∧ 0x80 + v % 64 ≤ 0xBF),
          if_true, if_pos rfl, List.append_eq, List.nil_append]
        congr 2
        omega

/-- Every `Char` holds a Unicode scalar value. -/
theorem charToNat_valid (c : Char) :
    c.toNat < 0xD800 ∨ (0xDFFF < c.toNat ∧ c.toNat < 0x110000) := by
  have h := c.valid
  rcases h with h | h
  · left
    exact h
  · right
    exact h

/-- The lossy decoder decodes an encoded character exactly. -/
theorem utf8Lossy_encodeChar (c : Char) (rest : List Nat) :
    utf8LossyAux none (encodeChar c ++ rest) = c :: utf8LossyAux none rest := by
  rw [encodeChar, utf8Lossy_encodeCodepoint c.toNat (charToNat_valid c) rest, Char.ofNat_toNat]

/-- The lossy decoder decodes an encoded character list exactly and
continues with whatever bytes follow. -/
theorem utf8Lossy_encodeChars (l : List Char) (tail : List Nat) :
    utf8LossyAux none (encodeChars l ++ tail) = l ++ utf8LossyAux none tail := by
  induction l with
  | nil => rfl
  | cons c t ih =>
    have hstep : encodeChars (c :: t) = encodeChar c ++ encodeChars t := rfl
    rw [hstep, List.append_assoc, utf8Lossy_encodeChar, ih]
    rfl

/-- Rust `split` yields at least one segment. -/
theorem rustSplitGo_ne_nil (p : List Char) (fuel : Nat) (cs acc : List Char) :
    rustSplitGo p fuel cs acc ≠ [] := by
  induction fuel generalizing cs acc with
  | zero => simp [rustSplitGo]
  | succ fuel ih =>
    cases cs with
    | nil => simp [rustSplitGo]
    | cons c t =>
      rw [rustSplitGo]
      split
      · simp
      · exact ih t (acc ++ [c])

/-- Rust `split` never yields an empty list of segments. -/
theorem rustSplit_ne_nil (p s : String) : rustSplit p s ≠ [] := by
  unfold rustSplit
  cases hp : p.data with
  | nil => simp
  | cons c t =>
    intro hc
    exact rustSplitGo_ne_nil (c :: t) s.data.length s.data []
      (List.map_eq_nil_iff.mp hc)

/-- When the pattern occurs nowhere in the text, Rust `split` yields the
single segment `acc ++ cs`. -/
theorem rustSplitGo_of_not_infix (p : List Char) (fuel : Nat) (cs acc : List Char)
    (h : ¬ p <:+: cs) :
    rustSplitGo p fuel cs acc = [acc ++ cs] := by
  induction fuel generalizing cs acc with
  | zero => rfl
  | succ fuel ih =>
    cases cs with
    | nil => simp [rustSplitGo]
    | cons c t =>
      rw [rustSplitGo]
      have hpre : ¬ p.isPrefixOf (c :: t) = true := by
        intro hc
        exact h (List.IsPrefix.isInfix (List.isPrefixOf_iff_prefix.mp hc))
      rw [if_neg hpre]
      have ht : ¬ p <:+: t := by
        intro hc
        exact h (hc.trans (List.suffix_cons c t).isInfix)
      rw [ih t (acc ++ [c]) ht]
      simp

/-- If no known field named `name` occurs among the members, reading them
either fails or leaves the `name` slot untouched. -/
theorem readUserFields_no_name (members : List (String × Json)) (acc : UserSlots)
    (h : "name" ∉ members.map Prod.fst) :
    (∃ e, readUserFields members acc = Except.error e)
    ∨ (∃ slots, readUserFields members acc = Except.ok slots ∧ slots.name = acc.name) := by
  induction members generalizing acc with
  | nil => exact Or.inr ⟨acc, rfl, rfl⟩
  | cons m t ih =>
    have hm : m.1 ≠ "name" := by
      intro hc
      exact h (by simp [hc])
    have ht : "name" ∉ t.map Prod.fst := by
      intro hc
      exact h (by simp [hc])
    obtain ⟨k, v⟩ := m
    rw [readUserFields]
    by_cases hk : k = "id"
    · rw [if_pos hk]
      cases hacc : acc.id with
      | some x => exact Or.inl ⟨_, rfl⟩
      | none =>
        cases hv : jsonToOptI32 v with
        | error e => exact Or.inl ⟨e, rfl⟩
        | ok oi => exact ih { acc with id := some oi } ht
    · rw [if_neg hk]
      have hkn : ¬ (k = "name") := by
        simpa using hm
      rw [if_neg hkn]
      by_cases hke : k = "email"
      · rw [if_pos hke]
        cases hacc : acc.email with
        | some x => exact Or.inl ⟨_, rfl⟩
        | none =>
          cases hv : jsonToString v with
          | error e => exact Or.inl ⟨e, rfl⟩
          | ok s => exact ih { acc with email := some s } ht
      · rw [if_neg hke]
        exact ih acc ht

/-- If no known field named `email` occurs among the members, reading them
either fails or leaves the `email` slot untouched. -/
theorem readUserFields_no_email (members : List (String × Json)) (acc : UserSlots)
    (h : "email" ∉ members.map Prod.fst) :
    (∃ e, readUserFields members acc = Except.error e)
    ∨ (∃ slots, readUserFields members acc = Except.ok slots ∧ slots.email = acc.email) := by
  induction members generalizing acc with
  | nil => exact Or.inr ⟨acc, rfl, rfl⟩
  | cons m t ih =>
    have hm : m.1 ≠ "email" := by
      intro hc
      exact h (by simp [hc])
    have ht : "email" ∉ t.map Prod.fst := by
      intro hc
      exact h (by simp [hc])
    obtain ⟨k, v⟩ := m
    rw [readUserFields]
    by_cases hk : k = "id"
    · rw [if_pos hk]
      cases hacc : acc.id with
      | some x => exact Or.inl ⟨_, rfl⟩
      | none =>
        cases hv : jsonToOptI32 v with
        | error e => exact Or.inl ⟨e, rfl⟩
        | ok oi => exact ih { acc with id := some oi } ht
    · rw [if_neg hk]
      by_cases hkn : k = "name"
      · rw [if_pos hkn]
        cases hacc : acc.name with
        | some x => exact Or.inl ⟨_, rfl⟩
        | none =>
          cases hv : jsonToString v with
          | error e => exact Or.inl ⟨e, rfl⟩
          | ok s => exact ih { acc with name := some s } ht
      · rw [if_neg hkn]
        have hke : ¬ (k = "email") := by
          simpa using hm
        rw [if_neg hke]
        exact ih acc ht

/-! ## Claims -/

/-- Claim C3 (confirmed): the dispatcher classifies the request text by
literal prefix with first match winning — `POST /users` to the create
handler, then `PUT /users/` to the update handler, then `DELETE /users/`
to the delete handler, and anything else to the fixed not-found
response. -/
theorem claim_c3 (r : String) (db : Db) :
    (rustStartsWith r "POST /users" = true →
      dispatch r db = handle_post_request r db)
    ∧ (rustStartsWith r "POST /users" = false →
      rustStartsWith r "PUT /users/" = true →
      dispatch r db = handle_put_request r db)
    ∧ (rustStartsWith r "POST /users" = false →
      rustStartsWith r "PUT /users/" = false →
      rustStartsWith r "DELETE /users/" = true →
      dispatch r db = handle_delete_request r db)
    ∧ (rustStartsWith r "POST /users" = false →
      rustStartsWith r "PUT /users/" = false →
      rustStartsWith r "DELETE /users/" = false →
      dispatch r db = (some (NOT_FOUND, "404 Not Found"), Trace.empty)) := by
  refine ⟨?_, ?_, ?_, ?_⟩
  · intro h
    simp [dispatch, h]
  · intro h1 h2
    simp [dispatch, h1, h2]
  · intro h1 h2 h3
    simp [dispatch, h1, h2, h3]
  · intro h1 h2 h3
    simp [dispatch, h1, h2, h3]

/-- Witness for C3 at one concrete request per branch. -/
theorem claim_c3_witness :
    dispatch "POST /users HTTP/1.1" dbAllOk
      = handle_post_request "POST /users HTTP/1.1" dbAllOk
    ∧ dispatch "PUT /users/7 HTTP/1.1" dbAllOk
      = handle_put_request "PUT /users/7 HTTP/1.1" dbAllOk
    ∧ dispatch "DELETE /users/7 HTTP/1.1" dbAllOk
      = handle_delete_request "DELETE /users/7 HTTP/1.1" dbAllOk
    ∧ dispatch "GET /users HTTP/1.1" dbAllOk
      = (some (NOT_FOUND, "404 Not Found"), Trace.empty) :=
  ⟨(claim_c3 "POST /users HTTP/1.1" dbAllOk).1 (by decide),
   (claim_c3 "PUT /users/7 HTTP/1.1" dbAllOk).2.1 (by decide) (by decide),
   (claim_c3 "DELETE /users/7 HTTP/1.1" dbAllOk).2.2.1 (by decide) (by decide) (by decide),
   (claim_c3 "GET /users HTTP/1.1" dbAllOk).2.2.2 (by decide) (by decide) (by decide)⟩

/-- Claim C4 (confirmed): on a valid id and successful connection and
execution, the delete handler answers 404 / `"User not found"` when zero
rows were affected and 200 / `"User deleted"` otherwise. -/
theorem claim_c4 (r : String) (db : Db) (id : Int) (n : Nat)
    (hid : parseI32 (get_id r) = some id)
    (hopen : db.openResult = Except.ok ())
    (hexec : db.execResult = Except.ok n) :
    (n = 0 → handle_delete_request r db
      = (some (NOT_FOUND, "User not found"), ⟨1, [(deleteSql, [Param.int32 id])]⟩))
    ∧ (n ≠ 0 → handle_delete_request r db
      = (some (OK_RESPONSE, "User deleted"), ⟨1, [(deleteSql, [Param.int32 id])]⟩)) := by
  constructor
  · intro h0
    simp [handle_delete_request, hid, hopen, hexec, h0]
  · intro h0
    simp [handle_delete_request, hid, hopen, hexec, h0]

/-- Witness for C4: both row-count outcomes at a concrete request. -/
theorem claim_c4_witness :
    handle_delete_request "DELETE /users/5 HTTP/1.1" ⟨Except.ok (), Except.ok 0⟩
      = (some (NOT_FOUND, "User not found"), ⟨1, [(deleteSql, [Param.int32 5])]⟩)
    ∧ handle_delete_request "DELETE /users/5 HTTP/1.1" ⟨Except.ok (), Except.ok 1⟩
      = (some (OK_RESPONSE, "User deleted"), ⟨1, [(deleteSql, [Param.int32 5])]⟩) :=
  ⟨(claim_c4 "DELETE /users/5 HTTP/1.1" ⟨Except.ok (), Except.ok 0⟩ 5 0
      (by decide) rfl rfl).1 rfl,
   (claim_c4 "DELETE /users/5 HTTP/1.1" ⟨Except.ok (), Except.ok 1⟩ 5 1
      (by decide) rfl rfl).2 (by decide)⟩

/-- Claim C5 (confirmed): on a valid id, well-formed body, and successful
connection and execution, the update handler answers 200 /
`"User updated"` whatever the affected-row count `n` was — the conclusion
does not depend on `n`, so the handler never inspects it. -/
theorem claim_c5 (r : String) (db : Db) (id : Int) (u : User) (n : Nat)
    (hid : parseI32 (get_id r) = some id)
    (hbody : get_user_request_body r = Except.ok u)
    (hopen : db.openResult = Except.ok ())
    (hexec : db.execResult = Except.ok n) :
    handle_put_request r db = (some (OK_RESPONSE, "User updated"),
      ⟨1, [(updateSql, [Param.str u.name, Param.str u.email, Param.int32 id])]⟩) := by
  simp [handle_put_request, hid, hbody, hopen, hexec]

/-- Witness for C5 at a concrete request with zero rows affected (the id
does not exist, yet the update reports success). -/
theorem claim_c5_witness :
    handle_put_request "PUT /users/9 HTTP/1.1\r\n\r\n\x7b\"name\":\"n\",\"email\":\"e\"\x7d"
        ⟨Except.ok (), Except.ok 0⟩
      = (some (OK_RESPONSE, "User updated"),
        ⟨1, [(updateSql, [Param.str "n", Param.str "e", Param.int32 9])]⟩) :=
  claim_c5 "PUT /users/9 HTTP/1.1\r\n\r\n\x7b\"name\":\"n\",\"email\":\"e\"\x7d"
    ⟨Except.ok (), Except.ok 0⟩ 9 ⟨none, "n", "e"⟩ 0 (by decide) rfl rfl rfl

/-- Counterexample to C1 as stated: on a well-formed create request, with
the connection opened, a failure of the SQL statement execution does NOT
produce the 500 / `"Error"` response — the handler panics (`.unwrap()` on
the `execute` result), modelled by the response component `none`. -/
theorem claim_c1_counterexample :
    (handle_post_request "POST /users HTTP/1.1\r\n\r\n\x7b\"name\":\"a\",\"email\":\"b\"\x7d"
        ⟨Except.ok (), Except.error "constraint violation"⟩).1 = none
    ∧ (handle_post_request "POST /users HTTP/1.1\r\n\r\n\x7b\"name\":\"a\",\"email\":\"b\"\x7d"
        ⟨Except.ok (), Except.error "constraint violation"⟩).1
      ≠ some (INTERNAL_SERVER_ERROR, "Error") := by
  constructor
  · rfl
  · intro h
    exact Option.noConfusion ((rfl : (handle_post_request
        "POST /users HTTP/1.1\r\n\r\n\x7b\"name\":\"a\",\"email\":\"b\"\x7d"
        ⟨Except.ok (), Except.error "constraint violation"⟩).1 = none) ▸ h)

/-- Claim C1 (corrected): a failure in parsing or in connection-open
collapses to the generic 500 / `"Error"` response in all three handlers;
a failure of the SQL statement execution, however, escapes the handler as
a panic (no response at all), because the source unwraps the `execute`
result. -/
theorem claim_c1 (r : String) (db : Db) :
    ((∃ e, get_user_request_body r = Except.error e)
        ∨ (∃ e, db.openResult = Except.error e) →
      handle_post_request r db = (some (INTERNAL_SERVER_ERROR, "Error"), ⟨1, []⟩))
    ∧ (parseI32 (get_id r) = none
        ∨ (∃ e, get_user_request_body r = Except.error e)
        ∨ (∃ e, db.openResult = Except.error e) →
      handle_put_request r db = (some (INTERNAL_SERVER_ERROR, "Error"), ⟨1, []⟩))
    ∧ (parseI32 (get_id r) = none ∨ (∃ e, db.openResult = Except.error e) →
      handle_delete_request r db = (some (INTERNAL_SERVER_ERROR, "Error"), ⟨1, []⟩))
    ∧ (∀ u e, get_user_request_body r = Except.ok u → db.openResult = Except.ok ()
        → db.execResult = Except.error e → (handle_post_request r db).1 = none)
    ∧ (∀ id u e, parseI32 (get_id r) = some id → get_user_request_body r = Except.ok u
        → db.openResult = Except.ok () → db.execResult = Except.error e
        → (handle_put_request r db).1 = none)
    ∧ (∀ id e, parseI32 (get_id r) = some id → db.openResult = Except.ok ()
        → db.execResult = Except.error e → (handle_delete_request r db).1 = none) := by
  refine ⟨?_, ?_, ?_, ?_, ?_, ?_⟩
  · rintro (⟨e, he⟩ | ⟨e, he⟩)
    · cases ho : db.openResult <;> simp [handle_post_request, he, ho]
    · cases hb : get_user_request_body r <;> simp [handle_post_request, he, hb]
  · rintro (hid | ⟨e, he⟩ | ⟨e, he⟩)
    · cases hb : get_user_request_body r <;> cases ho : db.openResult <;>
        simp [handle_put_request, hid, hb, ho]
    · cases hi : parseI32 (get_id r) <;> cases ho : db.openResult <;>
        simp [handle_put_request, hi, he, ho]
    · cases hi : parseI32 (get_id r) <;> cases hb : get_user_request_body r <;>
        simp [handle_put_request, hi, hb, he]
  · rintro (hid | ⟨e, he⟩)
    · cases ho : db.openResult <;> simp [handle_delete_request, hid, ho]
    · cases hi : parseI32 (get_id r) <;> simp [handle_delete_request, hi, he]
  · intro u e hb ho hx
    simp [handle_post_request, hb, ho, hx]
  · intro id u e hi hb ho hx
    simp [handle_put_request, hi, hb, ho, hx]
  · intro id e hi ho hx
    simp [handle_delete_request, hi, ho, hx]

/-- Witness for C1 (amended), exercising every conjunct at concrete
inputs: a malformed body, a non-numeric id, a failed connection-open, and
an execute failure in each of the three handlers. -/
theorem claim_c1_witness :
    handle_post_request "POST /users HTTP/1.1\r\n\r\nnot json" dbAllOk
      = (some (INTERNAL_SERVER_ERROR, "Error"), ⟨1, []⟩)
    ∧ handle_put_request "PUT /users/abc HTTP/1.1\r\n\r\n\x7b\"name\":\"a\",\"email\":\"b\"\x7d"
        dbAllOk = (some (INTERNAL_SERVER_ERROR, "Error"), ⟨1, []⟩)
    ∧ handle_delete_request "DELETE /users/5 HTTP/1.1" dbOpenFail
      = (some (INTERNAL_SERVER_ERROR, "Error"), ⟨1, []⟩)
    ∧ (handle_post_request "POST /users HTTP/1.1\r\n\r\n\x7b\"name\":\"a\",\"email\":\"b\"\x7d"
        dbExecFail).1 = none
    ∧ (handle_put_request "PUT /users/5 HTTP/1.1\r\n\r\n\x7b\"name\":\"a\",\"email\":\"b\"\x7d"
        dbExecFail).1 = none
    ∧ (handle_delete_request "DELETE /users/5 HTTP/1.1" dbExecFail).1 = none :=
  ⟨(claim_c1 "POST /users HTTP/1.1\r\n\r\nnot json" dbAllOk).1
      (Or.inl ⟨"invalid JSON", rfl⟩),
   (claim_c1 "PUT /users/abc HTTP/1.1\r\n\r\n\x7b\"name\":\"a\",\"email\":\"b\"\x7d" dbAllOk).2.1
      (Or.inl (by decide)),
   (claim_c1 "DELETE /users/5 HTTP/1.1" dbOpenFail).2.2.1
      (Or.inr ⟨"connection refused", rfl⟩),
   (claim_c1 "POST /users HTTP/1.1\r\n\r\n\x7b\"name\":\"a\",\"email\":\"b\"\x7d" dbExecFail).2.2.2.1
      ⟨none, "a", "b"⟩ "SQL error" rfl rfl rfl,
   (claim_c1 "PUT /users/5 HTTP/1.1\r\n\r\n\x7b\"name\":\"a\",\"email\":\"b\"\x7d" dbExecFail).2.2.2.2.1
      5 ⟨none, "a", "b"⟩ "SQL error" (by decide) rfl rfl rfl,
   (claim_c1 "DELETE /users/5 HTTP/1.1" dbExecFail).2.2.2.2.2
      5 "SQL error" (by decide) rfl rfl⟩

/-- Counterexample to C2 as stated: on `PUT /users/abc` (non-numeric id)
the handler does answer 500 / `"Error"`, but a database connection IS
opened — the trace records one `Connection::open` call, because the Rust
source evaluates all three tuple components before matching. -/
theorem claim_c2_counterexample :
    handle_put_request "PUT /users/abc HTTP/1.1" dbAllOk
      = (some (INTERNAL_SERVER_ERROR, "Error"), ⟨1, []⟩)
    ∧ (handle_put_request "PUT /users/abc HTTP/1.1" dbAllOk).2.opens ≠ 0 := by
  constructor
  · rfl
  · decide

/-- Claim C2 (corrected): on a PUT or DELETE request whose id segment does
not parse as an integer, the handler answers 500 / `"Error"` and submits
no SQL statement, but a database connection is still opened (the trace is
`⟨1, []⟩`: one connection-open, no statements). -/
theorem claim_c2 (r : String) (db : Db) (h : parseI32 (get_id r) = none) :
    handle_put_request r db = (some (INTERNAL_SERVER_ERROR, "Error"), ⟨1, []⟩)
    ∧ handle_delete_request r db = (some (INTERNAL_SERVER_ERROR, "Error"), ⟨1, []⟩) := by
  constructor
  · cases hb : get_user_request_body r <;> cases ho : db.openResult <;>
      simp [handle_put_request, h, hb, ho]
  · cases ho : db.openResult <;> simp [handle_delete_request, h, ho]

/-- Witness for C2 (amended) at concrete non-numeric-id requests. -/
theorem claim_c2_witness :
    handle_put_request "PUT /users/abc HTTP/1.1" dbAllOk
      = (some (INTERNAL_SERVER_ERROR, "Error"), ⟨1, []⟩)
    ∧ handle_delete_request "DELETE /users/xyz HTTP/1.1" dbAllOk
      = (some (INTERNAL_SERVER_ERROR, "Error"), ⟨1, []⟩) :=
  ⟨(claim_c2 "PUT /users/abc HTTP/1.1" dbAllOk (by decide)).1,
   (claim_c2 "DELETE /users/xyz HTTP/1.1" dbAllOk (by decide)).2⟩

/-- Counterexample to C6 as stated: on a segment with leading whitespace,
`split_whitespace().next()` skips the whitespace and returns the first
token, while truncation at the first whitespace would return empty text —
the two disagree on `PUT /users/ 1 HTTP/1.1`. -/
theorem claim_c6_counterexample :
    get_id "PUT /users/ 1 HTTP/1.1" = "1"
    ∧ get_id_truncate "PUT /users/ 1 HTTP/1.1" = ""
    ∧ get_id "PUT /users/ 1 HTTP/1.1" ≠ get_id_truncate "PUT /users/ 1 HTTP/1.1" :=
  ⟨by decide, by decide, by decide⟩

/-- Claim C6 (corrected): `get_id` splits the request text on `"/"` and
takes the third segment, then takes the first whitespace-separated token
of that segment — skipping leading whitespace, then stopping at the next
whitespace (so `"42 HTTP/1.1"` still yields `"42"`) — and returns empty
text whenever a step has no match: a missing third segment, or a third
segment that is empty or all whitespace. -/
theorem claim_c6 (r : String) :
    get_id r = String.mk (((((rustSplit "/" r)[2]?).getD "").data.dropWhile
      isRustWhitespace).takeWhile (fun c => !isRustWhitespace c))
    ∧ ((rustSplit "/" r)[2]? = none → get_id r = "")
    ∧ (splitWhitespaceNext (((rustSplit "/" r)[2]?).getD "") = none → get_id r = "")
    ∧ get_id "PUT /users/42 HTTP/1.1" = "42" := by
  refine ⟨?_, ?_, ?_, by decide⟩
  · unfold get_id splitWhitespaceNext
    cases hd : (((rustSplit "/" r)[2]?).getD "").data.dropWhile isRustWhitespace with
    | nil => simp [hd]
    | cons c t => simp [hd]
  · intro h
    unfold get_id
    rw [h]
    rfl
  · intro h
    unfold get_id
    rw [h]
    rfl

/-- Witness for C6 (amended): both empty-result guards fire at concrete
requests — no third segment, and an all-whitespace third segment. -/
theorem claim_c6_witness :
    get_id "" = "" ∧ get_id "PUT /users/ " = "" :=
  ⟨(claim_c6 "").2.1 (by decide),
   (claim_c6 "PUT /users/ ").2.2.1 (by decide)⟩

/-- Claim C9 (confirmed): the create handler depends on the parsed body
only through `name` and `email` — two requests whose bodies parse to
users agreeing on those two fields (the `id` field may differ or be
absent) produce identical responses AND identical database traces, so a
client-supplied `id` never reaches the database. -/
theorem claim_c9 (r1 r2 : String) (db : Db) (u1 u2 : User)
    (h1 : get_user_request_body r1 = Except.ok u1)
    (h2 : get_user_request_body r2 = Except.ok u2)
    (hn : u1.name = u2.name) (he : u1.email = u2.email) :
    handle_post_request r1 db = handle_post_request r2 db := by
  cases ho : db.openResult <;> cases hx : db.execResult <;>
    simp [handle_post_request, h1, h2, ho, hx, hn, he]

/-- Witness for C9: two concrete create requests differing only in the
presence of the JSON `id` field. -/
theorem claim_c9_witness :
    handle_post_request "POST /users HTTP/1.1\r\n\r\n\x7b\"name\":\"a\",\"email\":\"b\"\x7d"
        dbAllOk
      = handle_post_request
          "POST /users HTTP/1.1\r\n\r\n\x7b\"id\":7,\"name\":\"a\",\"email\":\"b\"\x7d"
          dbAllOk :=
  claim_c9 "POST /users HTTP/1.1\r\n\r\n\x7b\"name\":\"a\",\"email\":\"b\"\x7d"
    "POST /users HTTP/1.1\r\n\r\n\x7b\"id\":7,\"name\":\"a\",\"email\":\"b\"\x7d"
    dbAllOk ⟨none, "a", "b"⟩ ⟨some 7, "a", "b"⟩ rfl rfl rfl rfl

/-- Claim C10 (confirmed): `get_id` and `get_user_request_body` are total:
on every request text `get_id` yields a string and
`get_user_request_body` yields either a parsed user or a structured
error, never a panic; the guarded defaults make degenerate inputs (empty
text, too few `/` segments, no body separator) come out as empty text or
a structured error. -/
theorem claim_c10 :
    (∀ r : String, ∃ s : String, get_id r = s)
    ∧ (∀ r : String, (∃ u, get_user_request_body r = Except.ok u)
        ∨ (∃ e, get_user_request_body r = Except.error e))
    ∧ get_id "" = ""
    ∧ get_id "POST" = ""
    ∧ get_id "a/b" = ""
    ∧ (∃ e, get_user_request_body "" = Except.error e)
    ∧ (∃ e, get_user_request_body "no body separator" = Except.error e) := by
  refine ⟨fun r => ⟨_, rfl⟩, fun r => ?_, by decide, by decide, by decide,
    ⟨"invalid JSON", rfl⟩, ⟨"invalid JSON", rfl⟩⟩
  cases h : get_user_request_body r with
  | ok u => exact Or.inl ⟨u, rfl⟩
  | error e => exact Or.inr ⟨e, rfl⟩

/-- Counterexample to C7 as stated: on a request text with no
`"\r\n\r\n"` separator at all, body extraction does NOT return empty
text — `split(..).last()` returns the single segment, the whole text, so
a bare JSON object with no header block deserializes successfully. -/
theorem claim_c7_counterexample :
    rustSplit bodySep "\x7b\"name\":\"a\",\"email\":\"b\"\x7d"
      = ["\x7b\"name\":\"a\",\"email\":\"b\"\x7d"]
    ∧ extractBody "\x7b\"name\":\"a\",\"email\":\"b\"\x7d"
      = "\x7b\"name\":\"a\",\"email\":\"b\"\x7d"
    ∧ ("\x7b\"name\":\"a\",\"email\":\"b\"\x7d" : String) ≠ ""
    ∧ get_user_request_body "\x7b\"name\":\"a\",\"email\":\"b\"\x7d"
      = Except.ok ⟨none, "a", "b"⟩ :=
  ⟨by decide, by decide, by decide, rfl⟩

/-- Claim C7 (corrected): body extraction splits on `"\r\n\r\n"` and takes
the last segment; the split always yields at least one segment, so when
the separator is absent the body is the WHOLE request text, not empty
text.  The extracted text is JSON-deserialized into a user with required
string fields `name` and `email` and optional numeric `id`, and
deserialization fails when the JSON is absent, syntactically invalid, or
missing a required field; the derived deserializer reads the fields from
a JSON object by name, or equally from a three-element JSON array in
declaration order (`visit_seq`), where a shorter array is the
missing-field failure. -/
theorem claim_c7 :
    (∀ r : String, ¬ bodySep.data <:+: r.data → extractBody r = r)
    ∧ (∀ r : String, ∃ seg, (rustSplit bodySep r).getLast? = some seg
        ∧ extractBody r = seg)
    ∧ userFromStr "" = Except.error "invalid JSON"
    ∧ (∀ s : String, ∀ e, parseJsonText s = Except.error e →
        userFromStr s = Except.error e)
    ∧ (∀ members, "name" ∉ members.map Prod.fst →
        ∃ e, deserializeUser (Json.obj members) = Except.error e)
    ∧ (∀ members, "email" ∉ members.map Prod.fst →
        ∃ e, deserializeUser (Json.obj members) = Except.error e)
    ∧ (∀ n em, deserializeUser (Json.obj [("name", Json.str n), ("email", Json.str em)])
        = Except.ok ⟨none, n, em⟩)
    ∧ (∀ n em i, -2147483648 ≤ i → i ≤ 2147483647 →
        deserializeUser (Json.obj
          [("id", Json.num (JNum.int i)), ("name", Json.str n), ("email", Json.str em)])
        = Except.ok ⟨some i, n, em⟩)
    ∧ (∀ n em i, -2147483648 ≤ i → i ≤ 2147483647 →
        deserializeUser (Json.arr [Json.num (JNum.int i), Json.str n, Json.str em])
        = Except.ok ⟨some i, n, em⟩)
    ∧ (∀ n em, deserializeUser (Json.arr [Json.null, Json.str n, Json.str em])
        = Except.ok ⟨none, n, em⟩)
    ∧ (∀ jid n, ∃ e, deserializeUser (Json.arr [jid, Json.str n]) = Except.error e) := by
  refine ⟨?_, ?_, rfl, ?_, ?_, ?_, ?_, ?_, ?_, ?_, ?_⟩
  · intro r h
    have h2 := rustSplitGo_of_not_infix bodySep.data r.data.length r.data [] h
    have h3 : extractBody r
        = ((rustSplitGo bodySep.data r.data.length r.data []).map String.mk).getLast?.getD "" :=
      rfl
    rw [h3, h2]
    rfl
  · intro r
    have hne : rustSplit bodySep r ≠ [] := rustSplit_ne_nil bodySep r
    have h4 : (rustSplit bodySep r).getLast? ≠ none := by
      intro hc
      exact hne (List.getLast?_eq_none_iff.mp hc)
    obtain ⟨seg, hseg⟩ := Option.ne_none_iff_exists'.mp h4
    refine ⟨seg, hseg, ?_⟩
    unfold extractBody
    rw [hseg]
    rfl
  · intro s e h
    unfold userFromStr
    rw [h]
  · intro members h
    rcases readUserFields_no_name members ⟨none, none, none⟩ h with ⟨e, he⟩ | ⟨slots, hs, hn⟩
    · exact ⟨e, by simp [deserializeUser, he]⟩
    · refine ⟨"missing field name", ?_⟩
      simp only [deserializeUser, hs, hn]
  · intro members h
    rcases readUserFields_no_email members ⟨none, none, none⟩ h with ⟨e, he⟩ | ⟨slots, hs, hm⟩
    · exact ⟨e, by simp [deserializeUser, he]⟩
    · cases hn : slots.name with
      | none => exact ⟨"missing field name", by simp [deserializeUser, hs, hn, hm]⟩
      | some nm => exact ⟨"missing field email", by simp [deserializeUser, hs, hn, hm]⟩
  · intro n em
    rfl
  · intro n em i h1 h2
    simp [deserializeUser, readUserFields, jsonToOptI32, jsonToString, h1, h2]
  · intro n em i h1 h2
    simp [deserializeUser, jsonToOptI32, jsonToString, h1, h2]
  · intro n em
    rfl
  · intro jid n
    cases h : jsonToOptI32 jid with
    | error e => exact ⟨e, by simp [deserializeUser, h]⟩
    | ok oi => exact ⟨"invalid length", by simp [deserializeUser, jsonToString, h]⟩

/-- Witness for C7 (amended) at concrete inputs: a separator-free text is
its own body, a non-JSON body fails, a missing `name` or `email` fails,
a full object with an in-range `id` deserializes, the array form
(`visit_seq`) deserializes, and a two-element array fails. -/
theorem claim_c7_witness :
    extractBody "POST /users" = "POST /users"
    ∧ userFromStr "hello" = Except.error "invalid JSON"
    ∧ (∃ e, deserializeUser (Json.obj [("email", Json.str "b")]) = Except.error e)
    ∧ (∃ e, deserializeUser (Json.obj [("name", Json.str "a")]) = Except.error e)
    ∧ deserializeUser (Json.obj
        [("id", Json.num (JNum.int 7)), ("name", Json.str "a"), ("email", Json.str "b")])
      = Except.ok ⟨some 7, "a", "b"⟩
    ∧ deserializeUser (Json.arr [Json.num (JNum.int 7), Json.str "a", Json.str "b"])
      = Except.ok ⟨some 7, "a", "b"⟩
    ∧ (∃ e, deserializeUser (Json.arr [Json.num (JNum.int 7), Json.str "a"])
        = Except.error e) :=
  ⟨claim_c7.1 "POST /users" (by decide),
   claim_c7.2.2.2.1 "hello" "invalid JSON" rfl,
   claim_c7.2.2.2.2.1 [("email", Json.str "b")] (by decide),
   claim_c7.2.2.2.2.2.1 [("name", Json.str "a")] (by decide),
   claim_c7.2.2.2.2.2.2.2.1 "a" "b" 7 (by decide) (by decide),
   claim_c7.2.2.2.2.2.2.2.2.1 "a" "b" 7 (by decide) (by decide),
   claim_c7.2.2.2.2.2.2.2.2.2.2 (Json.num (JNum.int 7)) "a"⟩

/-- Claim C8 (confirmed): the bytes read from the socket are decoded with
the total lossy UTF-8 decoder and that decoded text is exactly what the
dispatcher classifies; the decoder is exact on every validly encoded
prefix (so decoding never fails), and invalid byte sequences are replaced
by U+FFFD while the degraded text is still classified as usual. -/
theorem claim_c8 :
    (∀ (bytes : List Nat) (db : Db),
      handle_client bytes db = dispatch (fromUtf8Lossy bytes) db)
    ∧ (∀ (s : String) (tail : List Nat),
        utf8Lossy (encodeUtf8 s ++ tail) = s.data ++ utf8Lossy tail)
    ∧ fromUtf8Lossy (encodeUtf8 "POST /users HTTP/1.1" ++ [0xFF, 0xFE])
      = "POST /users HTTP/1.1��"
    ∧ (∀ db : Db, handle_client (encodeUtf8 "POST /users HTTP/1.1" ++ [0xFF, 0xFE]) db
        = handle_post_request "POST /users HTTP/1.1��" db) := by
  refine ⟨fun bytes db => rfl, fun s tail => utf8Lossy_encodeChars s.data tail, by decide, ?_⟩
  intro db
  have h : fromUtf8Lossy (encodeUtf8 "POST /users HTTP/1.1" ++ [0xFF, 0xFE])
      = "POST /users HTTP/1.1��" := by decide
  have hpost : rustStartsWith "POST /users HTTP/1.1��" "POST /users" = true := by
    decide
  rw [handle_client, h, dispatch, if_pos hpost]

end Crud


